import Mathlib

/-
Verification of the computational core of the datenel-vue3 repository:
three date utilities (src/utils/getCalendarDates.ts, calculateWeekNum.ts,
getL10Weekday.ts) built on the ECMAScript Date primitive.

Embedding conventions:
* A Date value at local midnight is represented by its day number: the number
  of days since 1970-01-01 in the proleptic Gregorian calendar (ECMAScript's
  Day(t)).  The local time zone is modelled as UTC with no DST, so a Date's
  time value is dayNumber * 86400000 + timeWithinDay milliseconds.
* The host Date primitive is modelled after ECMA-262:
  - MakeDay(y, m, d) normalises month overflow: year y + floor(m/12),
    month m mod 12 (`makeDay` below);
  - the Date(y, m, d) constructor first applies MakeFullYear: an integer year
    in [0, 99] denotes 1900 + y (`fullYear`, `newDateYMD` below);
  - getDay() is (day + 4) mod 7 with 0 = Sunday (1970-01-01 was a Thursday);
  - getFullYear / getMonth / getDate decompose a day number into its civil
    year, 0-based month, and 1-based day of month;
  - setDate(x) rebuilds the date from its year and month with day-of-month x
    (with overflow normalisation), keeping the time within the day
    (`jsSetDate`, `jsSetDateMs` below).
* JS `%` and Math.floor-division by positive constants coincide with Int's
  `%` / `/` (Euclidean, here floor) on the comparisons used by the source.
-/

namespace Datenel

/-- Proleptic-Gregorian leap-year test, as in ECMAScript DaysInYear. -/
def isLeap (y : Int) : Bool := (y % 4 == 0 && y % 100 != 0) || y % 400 == 0

/-- Lengths of the twelve months of year `y`, January first. -/
def monthLengths (y : Int) : List Int :=
  [31, if isLeap y then 29 else 28, 31, 30, 31, 30, 31, 31, 30, 31, 30, 31]

/-- Number of days in 0-based month `m` of year `y`. -/
def daysInMonth (y : Int) (m : Nat) : Int := (monthLengths y).getD m 0

/-- Days of year `y` that precede 0-based month `m`. -/
def monthOffset (y : Int) (m : Nat) : Int := ((monthLengths y).take m).sum

/-- Signed count of days in the years 1..y (negative years counted negatively);
the three floor-division terms count the leap years among them. -/
def daysUpto (y : Int) : Int := 365 * y + y / 4 - y / 100 + y / 400

/-- Day number of January 1 of year `y` (0 = 1970-01-01). -/
def yearStart (y : Int) : Int := daysUpto (y - 1) - daysUpto 1969

/-- Day number of day `d` (1-based, may overflow) of 0-based month `m < 12`
of year `y`. -/
def dateToDay (y : Int) (m : Nat) (d : Int) : Int :=
  yearStart y + monthOffset y m + (d - 1)

/-- Civil year containing day number `z`: a floor-division guess from the
400-year cycle (146097 days), corrected by comparing against `yearStart`.
This is ECMAScript's YearFromTime. -/
def yearOfDay (z : Int) : Int :=
  let g := (400 * (z + daysUpto 1969)) / 146097
  if z < yearStart (g + 1) then g
  else if z < yearStart (g + 2) then g + 1
  else g + 2

/-- ECMAScript getDay(): weekday of day number `z`, 0 = Sunday .. 6 = Saturday. -/
def getDay (z : Int) : Int := (z + 4) % 7

/-- Day of year of day number `z` (0-based). -/
def doy (z : Int) : Int := z - yearStart (yearOfDay z)

/-- Index of the month containing day-of-year `t`, given the month lengths. -/
def monthFromDoy : List Int → Int → Nat
  | [], _ => 0
  | len :: rest, t => if t < len then 0 else monthFromDoy rest (t - len) + 1

/-- ECMAScript getMonth(): 0-based month of day number `z`. -/
def getMonth (z : Int) : Nat := monthFromDoy (monthLengths (yearOfDay z)) (doy z)

/-- ECMAScript getDate(): 1-based day of month of day number `z`. -/
def getDate (z : Int) : Int := doy z - monthOffset (yearOfDay z) (getMonth z) + 1

/-- ECMAScript getFullYear() of day number `z`. -/
def getFullYear (z : Int) : Int := yearOfDay z

/-- ECMA-262 MakeDay(y, m, d): month overflow rolls into adjacent years. -/
def makeDay (y m d : Int) : Int := dateToDay (y + m / 12) (m % 12).toNat d

/-- ECMA-262 MakeFullYear: an integer year in [0, 99] denotes 1900 + y. -/
def fullYear (y : Int) : Int := if 0 ≤ y ∧ y ≤ 99 then 1900 + y else y

/-- Day number built by the host constructor `new Date(y, m, d)` (local
midnight); `new Date(y, m)` is the case d = 1. -/
def newDateYMD (y m d : Int) : Int := makeDay (fullYear y) m d

/-- ECMAScript setDate(x) on a midnight Date with day number `z`: rebuild from
the first of the month, `(z - (getDate z - 1)) + (x - 1)`. -/
def jsSetDate (z x : Int) : Int := z - (getDate z - 1) + (x - 1)

/-- Day numbers `s, s+1, ...`, `n` of them; the enumeration loop of
getCalendarDates (`new Date(i)` pushed, then `i.setDate(i.getDate() + 1)`). -/
def dateRangeAux : Nat → Int → List Int
  | 0, _ => []
  | n + 1, s => s :: dateRangeAux n (s + 1)

/-- Day numbers from `s` to `e` inclusive (`for (let i = s; i <= e; ...)`). -/
def dateRange (s e : Int) : List Int := dateRangeAux (e + 1 - s).toNat s

/-- Embedding of src/utils/getCalendarDates.ts.  Argument order as in the
source: `currentDate` is the 0-based month, `currentYear` the year.  Dates are
day numbers; `setDate(getDate() ± k)` is written via `jsSetDate`. -/
def getCalendarDates (currentDate currentYear : Int) : List Int :=
  let baselineDate := newDateYMD currentYear currentDate 1
  let calendarStart := newDateYMD (getFullYear baselineDate) (getMonth baselineDate) 1
  let dayOfWeek := if getDay calendarStart = 0 then 7 else getDay calendarStart
  let calendarStart := if dayOfWeek ≠ 1 then
      jsSetDate calendarStart (getDate calendarStart - dayOfWeek + 1)
    else calendarStart
  let calendarEnd := newDateYMD (getFullYear baselineDate) ((getMonth baselineDate : Int) + 1) 0
  let calendarEnd := if getDay calendarEnd ≠ 0 then
      jsSetDate calendarEnd (getDate calendarEnd + 7 - getDay calendarEnd)
    else calendarEnd
  dateRange calendarStart calendarEnd

/-- Milliseconds per day. -/
def msPerDay : Int := 86400000

/-- ECMAScript Day(t): day number of a time value in milliseconds. -/
def msDay (t : Int) : Int := t / msPerDay

/-- setHours(0, 0, 0, 0): truncate a time value to local midnight. -/
def setMidnight (t : Int) : Int := msDay t * msPerDay

/-- The source expression `d.getDay() || 7` on a time value. -/
def jsDayOr7 (t : Int) : Int :=
  if getDay (msDay t) = 0 then 7 else getDay (msDay t)

/-- ECMAScript setDate(x) on a midnight time value. -/
def jsSetDateMs (t x : Int) : Int := t - (getDate (msDay t) - x) * msPerDay

/-- Embedding of src/utils/calculateWeekNum.ts.  The argument is the time
value (milliseconds) of the Date passed in; the result is
(weekYear, weekNum).  `Math.ceil((diffInDays + 1) / 7)` is
`(diffInDays + 1 + 6) / 7` on integers (floor division). -/
def calculateWeekNum (date : Int) : Int × Int :=
  let tempDate := setMidnight date
  let tempDate := jsSetDateMs tempDate (getDate (msDay tempDate) + 4 - jsDayOr7 tempDate)
  let forthDay := newDateYMD (getFullYear (msDay tempDate)) 0 4 * msPerDay
  let forthDay := jsSetDateMs forthDay (getDate (msDay forthDay) + 4 - jsDayOr7 forthDay)
  let diffInDays := (tempDate - forthDay) / msPerDay
  let weekNum := (diffInDays + 1 + 6) / 7
  (getFullYear (msDay tempDate), weekNum)

/-- Embedding of src/utils/getL10Weekday.ts.  The host locale facility
`d.toLocaleDateString(userLang, {weekday: "narrow"})` for the fixed locale
`userLang` is the uninterpreted function `fmt` from day numbers to labels. -/
def getL10Weekday (fmt : Int → String) : List String :=
  (List.range 7).map fun i : Nat => fmt (newDateYMD 2021 0 ((i : Int) + 4))

/-- Decidable check that a list of day numbers increases in steps of one. -/
def consecutiveDays : List Int → Bool
  | [] => true
  | [_] => true
  | a :: b :: t => (b == a + 1) && consecutiveDays (b :: t)

/-- Variable state of calculateWeekNum: the caller's Date argument and the two
locals.  `forthDay` is declared mid-function; before its declaration the field
holds the placeholder 0. -/
structure CWState where
  date : Int
  tempDate : Int
  forthDay : Int

/-- Line 2, `const tempDate = new Date(date)`: copy the argument's time value. -/
def cwLine2 (date : Int) : CWState := { date := date, tempDate := date, forthDay := 0 }

/-- Line 3, `tempDate.setHours(0, 0, 0, 0)`. -/
def cwLine3 (s : CWState) : CWState := { s with tempDate := setMidnight s.tempDate }

/-- Line 5, `tempDate.setDate(tempDate.getDate() + 4 - (tempDate.getDay() || 7))`. -/
def cwLine5 (s : CWState) : CWState :=
  { s with tempDate :=
      jsSetDateMs s.tempDate (getDate (msDay s.tempDate) + 4 - jsDayOr7 s.tempDate) }

/-- Line 7, `const forthDay = new Date(tempDate.getFullYear(), 0, 4)`. -/
def cwLine7 (s : CWState) : CWState :=
  { s with forthDay := newDateYMD (getFullYear (msDay s.tempDate)) 0 4 * msPerDay }

/-- Line 8, `forthDay.setDate(forthDay.getDate() + 4 - (forthDay.getDay() || 7))`. -/
def cwLine8 (s : CWState) : CWState :=
  { s with forthDay :=
      jsSetDateMs s.forthDay (getDate (msDay s.forthDay) + 4 - jsDayOr7 s.forthDay) }

/-- State after every statement of calculateWeekNum that writes a variable;
the remaining lines only read. -/
def calculateWeekNumTrace (date : Int) : CWState :=
  cwLine8 (cwLine7 (cwLine5 (cwLine3 (cwLine2 date))))

/-! Arithmetic facts about the year-counting functions. -/

/-- Unfolded characterisation of the leap-year test. -/
theorem isLeap_iff (y : Int) :
    isLeap y = true ↔ ((y % 4 = 0 ∧ ¬ y % 100 = 0) ∨ y % 400 = 0) := by
  simp only [isLeap, Bool.or_eq_true, Bool.and_eq_true, beq_iff_eq, bne_iff_ne, ne_eq]

/-- Stepping one year forward adds the length of the year. -/
theorem yearStart_succ (y : Int) :
    yearStart (y + 1) = yearStart y + (if isLeap y then 366 else 365) := by
  by_cases h : ((y % 4 = 0 ∧ ¬ y % 100 = 0) ∨ y % 400 = 0)
  · rw [(isLeap_iff y).mpr h]
    simp only [if_true]
    unfold yearStart daysUpto
    omega
  · have hb : isLeap y = false := by
      cases hb2 : isLeap y
      · rfl
      · exact absurd ((isLeap_iff y).mp hb2) h
    rw [hb]
    simp only [Bool.false_eq_true, if_false]
    unfold yearStart daysUpto
    omega

/-- Every year is at least 365 and at most 366 days long. -/
theorem yearStart_succ_bounds (y : Int) :
    yearStart y + 365 ≤ yearStart (y + 1) ∧ yearStart (y + 1) ≤ yearStart y + 366 := by
  have h := yearStart_succ y
  split_ifs at h <;> omega

/-- Year starts are monotone. -/
theorem yearStart_mono (a b : Int) (h : a ≤ b) : yearStart a ≤ yearStart b := by
  unfold yearStart daysUpto; omega

/-- The searched year really contains the day: `yearOfDay` is correct. -/
theorem yearOfDay_spec (z : Int) :
    yearStart (yearOfDay z) ≤ z ∧ z < yearStart (yearOfDay z + 1) := by
  simp only [yearOfDay]
  split_ifs with h1 h2 <;>
    unfold yearStart daysUpto at * <;>
    ring_nf at * <;>
    omega

/-- A day number lies in the interval of only one year. -/
theorem yearOfDay_eq (z y : Int) (h1 : yearStart y ≤ z) (h2 : z < yearStart (y + 1)) :
    yearOfDay z = y := by
  obtain ⟨s1, s2⟩ := yearOfDay_spec z
  rcases lt_trichotomy (yearOfDay z) y with h | h | h
  · have hm := yearStart_mono (yearOfDay z + 1) y (by omega)
    linarith
  · exact h
  · have hm := yearStart_mono (y + 1) (yearOfDay z) (by omega)
    linarith

/-! Facts about the fixed month table. -/

/-- The month offsets accumulate the month lengths. -/
theorem monthOffset_succ (y : Int) (m : Nat) (hm : m < 12) :
    monthOffset y (m + 1) = monthOffset y m + daysInMonth y m := by
  interval_cases m <;> cases hb : isLeap y <;>
    simp [monthOffset, daysInMonth, monthLengths, hb]

/-- Offsets of the twelve months are nonnegative. -/
theorem monthOffset_nonneg (y : Int) (m : Nat) (hm : m ≤ 12) : 0 ≤ monthOffset y m := by
  interval_cases m <;> cases hb : isLeap y <;>
    simp [monthOffset, monthLengths, hb]

/-- Every month has between 28 and 31 days. -/
theorem daysInMonth_bounds (y : Int) (m : Nat) (hm : m < 12) :
    28 ≤ daysInMonth y m ∧ daysInMonth y m ≤ 31 := by
  interval_cases m <;> cases hb : isLeap y <;>
    simp [daysInMonth, monthLengths, hb]

/-- The whole month table sums to the year length. -/
theorem monthOffset_twelve (y : Int) :
    monthOffset y 12 = (if isLeap y then 366 else 365) := by
  cases hb : isLeap y <;> simp [monthOffset, monthLengths, hb]

/-- Month offsets stay within the year. -/
theorem monthOffset_lt_year (y : Int) (m : Nat) (hm : m < 12) :
    monthOffset y m + daysInMonth y m ≤ monthOffset y 12 := by
  interval_cases m <;> cases hb : isLeap y <;>
    simp [monthOffset, daysInMonth, monthLengths, hb]

/-- The year boundary in terms of the month table. -/
theorem yearStart_succ_offset (y : Int) :
    yearStart (y + 1) = yearStart y + monthOffset y 12 := by
  rw [yearStart_succ, monthOffset_twelve]

/-- A valid calendar date lands inside its own year. -/
theorem dateToDay_in_year (y : Int) (m : Nat) (d : Int) (hm : m < 12)
    (hd1 : 1 ≤ d) (hd2 : d ≤ daysInMonth y m) :
    yearStart y ≤ dateToDay y m d ∧ dateToDay y m d < yearStart (y + 1) := by
  have h1 := monthOffset_nonneg y m (by omega)
  have h2 := monthOffset_lt_year y m hm
  have h3 := yearStart_succ_offset y
  unfold dateToDay
  omega

/-- getFullYear recovers the year of a valid calendar date. -/
theorem yearOfDay_dateToDay (y : Int) (m : Nat) (d : Int) (hm : m < 12)
    (hd1 : 1 ≤ d) (hd2 : d ≤ daysInMonth y m) :
    yearOfDay (dateToDay y m d) = y := by
  obtain ⟨h1, h2⟩ := dateToDay_in_year y m d hm hd1 hd2
  exact yearOfDay_eq _ _ h1 h2

/-- Searching a table of positive lengths finds the block covering `t`. -/
theorem monthFromDoy_spec (L : List Int) (m : Nat) (t : Int)
    (hm : m < L.length) (hpos : ∀ x ∈ L, 0 < x)
    (h1 : (L.take m).sum ≤ t) (h2 : t < (L.take m).sum + L.getD m 0) :
    monthFromDoy L t = m := by
  induction L generalizing m t with
  | nil => simp at hm
  | cons a rest ih =>
    cases m with
    | zero =>
      simp only [List.take_zero, List.sum_nil, List.getD_cons_zero] at h1 h2
      simp only [monthFromDoy, if_pos (by omega : t < a)]
    | succ m =>
      have hsum : 0 ≤ (rest.take m).sum := by
        apply List.sum_nonneg
        intro x hx
        exact le_of_lt (hpos x (List.mem_cons_of_mem a (List.take_subset m rest hx)))
      simp only [List.take_succ_cons, List.sum_cons, List.getD_cons_succ] at h1 h2
      have hta : ¬ t < a := by omega
      simp only [monthFromDoy, if_neg hta]
      have := ih m (t - a) (by simpa using hm)
        (fun x hx => hpos x (List.mem_cons_of_mem a hx)) (by omega) (by omega)
      omega

/-- All twelve month lengths are positive. -/
theorem monthLengths_pos (y : Int) : ∀ x ∈ monthLengths y, 0 < x := by
  intro x hx
  cases hb : isLeap y <;> rw [monthLengths, hb] at hx <;> simp at hx <;>
    rcases hx with h | h | h | h | h | h | h | h | h | h | h | h <;> omega

/-- The month table has twelve entries. -/
theorem monthLengths_length (y : Int) : (monthLengths y).length = 12 := rfl

/-- Searching the month table finds the month that covers the day of year. -/
theorem monthFromDoy_at (y : Int) (m : Nat) (hm : m < 12) (t : Int)
    (h1 : monthOffset y m ≤ t) (h2 : t < monthOffset y m + daysInMonth y m) :
    monthFromDoy (monthLengths y) t = m :=
  monthFromDoy_spec (monthLengths y) m t (by rw [monthLengths_length]; omega)
    (monthLengths_pos y) h1 h2

/-- getMonth recovers the month of the first day of a valid month. -/
theorem getMonth_dateToDay (y : Int) (m : Nat) (hm : m < 12) :
    getMonth (dateToDay y m 1) = m := by
  have hb := daysInMonth_bounds y m hm
  have hy := yearOfDay_dateToDay y m 1 hm (by norm_num) (by omega)
  unfold getMonth doy
  rw [hy]
  have harg : dateToDay y m 1 - yearStart y = monthOffset y m := by
    unfold dateToDay; ring
  rw [harg]
  exact monthFromDoy_at y m hm _ le_rfl (by omega)

/-! Facts about the enumeration loop. -/

/-- Length of the enumeration. -/
theorem dateRangeAux_length (n : Nat) (s : Int) : (dateRangeAux n s).length = n := by
  induction n generalizing s with
  | zero => rfl
  | succ n ih => simp [dateRangeAux, ih]

/-- Multiplicity of each value in the enumeration. -/
theorem dateRangeAux_count (n : Nat) (s z : Int) :
    (dateRangeAux n s).count z = if s ≤ z ∧ z < s + n then 1 else 0 := by
  induction n generalizing s with
  | zero =>
    simp only [dateRangeAux, List.count_nil]
    split_ifs with h
    · omega
    · rfl
  | succ n ih =>
    simp only [dateRangeAux, List.count_cons, ih, beq_iff_eq]
    split_ifs <;> omega

/-- First element of a nonempty enumeration. -/
theorem dateRangeAux_head (n : Nat) (s : Int) (h : 0 < n) :
    (dateRangeAux n s).head? = some s := by
  cases n with
  | zero => omega
  | succ n => rfl

/-- Last element of a nonempty enumeration. -/
theorem dateRangeAux_getLast (n : Nat) (s : Int) (h : 0 < n) :
    (dateRangeAux n s).getLast? = some (s + n - 1) := by
  induction n generalizing s with
  | zero => omega
  | succ n ih =>
    cases n with
    | zero => simp [dateRangeAux]
    | succ k =>
      have hstep : dateRangeAux (k + 1 + 1) s =
          s :: (s + 1) :: dateRangeAux k (s + 1 + 1) := rfl
      have hrest : (s + 1) :: dateRangeAux k (s + 1 + 1) = dateRangeAux (k + 1) (s + 1) := rfl
      rw [hstep, List.getLast?_cons_cons, hrest, ih (s + 1) (by omega)]
      congr 1
      push_cast
      ring

/-- The enumeration increases in steps of one day. -/
theorem consecutiveDays_dateRangeAux (n : Nat) (s : Int) :
    consecutiveDays (dateRangeAux n s) = true := by
  induction n generalizing s with
  | zero => rfl
  | succ n ih =>
    cases n with
    | zero => rfl
    | succ k =>
      have hstep : dateRangeAux (k + 1 + 1) s = s :: (s + 1) :: dateRangeAux k (s + 1 + 1) := rfl
      have hrest : (s + 1) :: dateRangeAux k (s + 1 + 1) = dateRangeAux (k + 1) (s + 1) := rfl
      rw [hstep, consecutiveDays, hrest, ih (s + 1)]
      simp

/-- Multiplicity of each value in an inclusive range of days. -/
theorem dateRange_count (s e z : Int) :
    (dateRange s e).count z = if s ≤ z ∧ z ≤ e then 1 else 0 := by
  rw [dateRange, dateRangeAux_count]
  split_ifs <;> omega

/-- Length of an inclusive range of days. -/
theorem dateRange_length (s e : Int) : (dateRange s e).length = (e + 1 - s).toNat := by
  rw [dateRange, dateRangeAux_length]

/-- First element of a nonempty inclusive range. -/
theorem dateRange_head (s e : Int) (h : s ≤ e) : (dateRange s e).head? = some s := by
  rw [dateRange, dateRangeAux_head _ _ (by omega)]

/-- Last element of a nonempty inclusive range. -/
theorem dateRange_getLast (s e : Int) (h : s ≤ e) : (dateRange s e).getLast? = some e := by
  rw [dateRange, dateRangeAux_getLast _ _ (by omega)]
  congr 1
  omega

/-! Characterisation of the calendar grid. -/

/-- Derived closed form of the source's Monday adjustment: the first of the
month stepped back to the preceding Monday (or kept if already Monday). -/
def gridStart (Y : Int) (M : Nat) : Int :=
  dateToDay Y M 1 - (getDay (dateToDay Y M 1) + 6) % 7

/-- Derived closed form of the source's Sunday adjustment: the last of the
month stepped forward to the following Sunday (or kept if already Sunday). -/
def gridEnd (Y : Int) (M : Nat) : Int :=
  dateToDay Y M 1 + daysInMonth Y M - 1
    + (7 - getDay (dateToDay Y M 1 + daysInMonth Y M - 1)) % 7

/-- The adjusted start is a Monday. -/
theorem getDay_gridStart (Y : Int) (M : Nat) : getDay (gridStart Y M) = 1 := by
  unfold gridStart getDay
  omega

/-- The adjusted end is a Sunday. -/
theorem getDay_gridEnd (Y : Int) (M : Nat) : getDay (gridEnd Y M) = 0 := by
  unfold gridEnd getDay
  omega

/-- The adjusted endpoints enclose the month. -/
theorem gridStart_gridEnd_bounds (Y : Int) (M : Nat) (hM : M < 12) :
    gridStart Y M ≤ dateToDay Y M 1 ∧
      dateToDay Y M 1 + daysInMonth Y M - 1 ≤ gridEnd Y M ∧
      gridStart Y M ≤ gridEnd Y M := by
  have hd := daysInMonth_bounds Y M hM
  unfold gridStart gridEnd getDay
  omega

/-- Month cast into the valid range. -/
theorem natmod_lt12 (m : Int) : (m % 12).toNat < 12 := by omega

/-- The constructor of the first of a valid month. -/
theorem newDateYMD_first (y : Int) (M : Nat) (hM : M < 12) :
    newDateYMD y (M : Int) 1 = dateToDay (fullYear y) M 1 := by
  unfold newDateYMD makeDay
  have h1 : (M : Int) / 12 = 0 := by omega
  have h2 : ((M : Int) % 12).toNat = M := by omega
  rw [h1, h2, add_zero]

/-- Day 0 of the next month is the last day of a valid month. -/
theorem newDateYMD_monthEnd (y : Int) (M : Nat) (hM : M < 12) :
    newDateYMD y ((M : Int) + 1) 0 =
      dateToDay (fullYear y) M 1 + daysInMonth (fullYear y) M - 1 := by
  unfold newDateYMD makeDay
  rcases Nat.lt_or_ge M 11 with h | h
  · have h1 : ((M : Int) + 1) / 12 = 0 := by omega
    have h2 : (((M : Int) + 1) % 12).toNat = M + 1 := by omega
    rw [h1, h2, add_zero]
    unfold dateToDay
    rw [monthOffset_succ _ M hM]
    ring
  · have hM11 : M = 11 := by omega
    subst hM11
    have h1 : (((11 : Nat) : Int) + 1) / 12 = 1 := by norm_num
    have h2 : ((((11 : Nat) : Int) + 1) % 12).toNat = 0 := by norm_num
    rw [h1, h2]
    unfold dateToDay
    have h3 := yearStart_succ_offset (fullYear y)
    have h4 := monthOffset_succ (fullYear y) 11 (by norm_num)
    norm_num at h4
    have h5 : monthOffset (fullYear y + 1) 0 = 0 := rfl
    have h6 : monthOffset (fullYear y) 0 = 0 := rfl
    omega

/-- Master characterisation: the grid is the inclusive day range from the
adjusted Monday to the adjusted Sunday around the month the host Date
primitive actually selects (including its year normalisations). -/
theorem getCalendarDates_eq (m y : Int) :
    getCalendarDates m y =
      dateRange (gridStart (fullYear (fullYear y + m / 12)) (m % 12).toNat)
        (gridEnd (fullYear (fullYear y + m / 12)) (m % 12).toNat) := by
  have hMn : (m % 12).toNat < 12 := natmod_lt12 m
  have hb : newDateYMD y m 1 = dateToDay (fullYear y + m / 12) (m % 12).toNat 1 := rfl
  have hdb := daysInMonth_bounds (fullYear y + m / 12) (m % 12).toNat hMn
  have h1 : getFullYear (newDateYMD y m 1) = fullYear y + m / 12 := by
    rw [hb]
    unfold getFullYear
    exact yearOfDay_dateToDay _ _ _ hMn (by norm_num) (by omega)
  have h2 : getMonth (newDateYMD y m 1) = (m % 12).toNat := by
    rw [hb]
    exact getMonth_dateToDay _ _ hMn
  simp only [getCalendarDates, h1, h2]
  rw [newDateYMD_first _ _ hMn, newDateYMD_monthEnd _ _ hMn]
  unfold gridStart gridEnd jsSetDate getDay
  congr 1 <;> split_ifs <;> omega

/-! Evaluation of calculateWeekNum down to day arithmetic. -/

/-- Thursday of the week containing day `z`, Sunday counting as the last day:
the effect of the source's `setDate(getDate() + 4 - (getDay() || 7))`. -/
def thursdayOf (z : Int) : Int := z + 4 - (if getDay z = 0 then 7 else getDay z)

/-- Day of a time value built from a whole number of days. -/
theorem msDay_mul (a : Int) : msDay (a * msPerDay) = a := by
  unfold msDay msPerDay
  omega

/-- The Thursday shift of the source, on a midnight time value. -/
theorem shiftThursday (a : Int) :
    jsSetDateMs (a * msPerDay) (getDate a + 4 - jsDayOr7 (a * msPerDay))
      = thursdayOf a * msPerDay := by
  unfold jsSetDateMs jsDayOr7 thursdayOf
  rw [msDay_mul]
  split_ifs <;> ring

/-- January 4 as produced by the constructor (two-digit years shifted). -/
theorem newDateYMD_jan4 (Y : Int) : newDateYMD Y 0 4 = dateToDay (fullYear Y) 0 4 := by
  unfold newDateYMD makeDay
  norm_num

/-- Day difference of two whole-day time values. -/
theorem sub_mul_msPerDay_div (a b : Int) :
    (a * msPerDay - b * msPerDay) / msPerDay = a - b := by
  unfold msPerDay
  omega

/-- calculateWeekNum reduced to day-number arithmetic. -/
theorem calculateWeekNum_eval (t : Int) :
    calculateWeekNum t =
      (getFullYear (thursdayOf (msDay t)),
        (thursdayOf (msDay t)
            - thursdayOf (dateToDay (fullYear (getFullYear (thursdayOf (msDay t)))) 0 4)
            + 1 + 6) / 7) := by
  simp only [calculateWeekNum, setMidnight, msDay_mul, shiftThursday, newDateYMD_jan4,
    sub_mul_msPerDay_div]

/-- The Thursday shift lands on a Thursday. -/
theorem getDay_thursdayOf (z : Int) : getDay (thursdayOf z) = 4 := by
  unfold thursdayOf getDay
  split_ifs <;> omega

/-- The Thursday shift moves at most three days. -/
theorem thursdayOf_near (z : Int) : z - 3 ≤ thursdayOf z ∧ thursdayOf z ≤ z + 3 := by
  unfold thursdayOf getDay
  split_ifs <;> omega

/-! Claim theorems. -/

/-- Claim C1, counterexample: for month 0 of year 0 the grid does not contain
the days of the real month (0, 0) at all — the host constructor reads year 0
as 1900, so the grid holds January 1900.  January 1 of year 0 appears zero
times, not once. -/
theorem c1_counterexample :
    ¬ ((getCalendarDates 0 0).count (dateToDay 0 0 1) = 1) := by decide

/-- Claim C1 (amended): for every month in [0,11] and every year outside
[0,99] (two-digit years are shifted to 1900+y by the host Date constructor),
every day of the real calendar month appears exactly once in the grid. -/
theorem c1_month_coverage (y : Int) (m : Nat) (d : Int) (hy : y < 0 ∨ 100 ≤ y)
    (hm : m < 12) (hd1 : 1 ≤ d) (hd2 : d ≤ daysInMonth y m) :
    (getCalendarDates (m : Int) y).count (dateToDay y m d) = 1 := by
  have hfy : fullYear y = y := by
    unfold fullYear
    rw [if_neg (by omega)]
  have h0 : ((m : Nat) : Int) / 12 = 0 := by omega
  have h1 : (((m : Nat) : Int) % 12).toNat = m := by omega
  rw [getCalendarDates_eq, h0, add_zero, h1]
  simp only [hfy]
  rw [dateRange_count]
  have hb := gridStart_gridEnd_bounds y m hm
  have hd : dateToDay y m d = dateToDay y m 1 + (d - 1) := by
    unfold dateToDay
    ring
  split_ifs with h
  · rfl
  · exact absurd ⟨by omega, by omega⟩ h

/-- Claim C1, witness of the amended theorem at June 2025. -/
theorem c1_witness :
    ((2025 : Int) < 0 ∨ 100 ≤ (2025 : Int)) ∧ (0 : Nat) < 12 ∧ (1 : Int) ≤ 15 ∧
      (15 : Int) ≤ daysInMonth 2025 0 ∧
      (getCalendarDates ((0 : Nat) : Int) 2025).count (dateToDay 2025 0 15) = 1 :=
  ⟨by norm_num, by norm_num, by norm_num, by decide,
    c1_month_coverage 2025 0 15 (by norm_num) (by norm_num) (by norm_num) (by decide)⟩

/-- Claim C2: for every month in [0,11] and every year the grid is nonempty,
its length is a multiple of 7, its first element is a Monday and its last
element is a Sunday. -/
theorem c2_grid_shape (m : Nat) (y : Int) (hm : m < 12) :
    getCalendarDates (m : Int) y ≠ [] ∧
      (getCalendarDates (m : Int) y).length % 7 = 0 ∧
      (getCalendarDates (m : Int) y).head?.map getDay = some 1 ∧
      (getCalendarDates (m : Int) y).getLast?.map getDay = some 0 := by
  have h0 : ((m : Nat) : Int) / 12 = 0 := by omega
  have h1 : (((m : Nat) : Int) % 12).toNat = m := by omega
  rw [getCalendarDates_eq, h0, add_zero, h1]
  have hb := gridStart_gridEnd_bounds (fullYear (fullYear y)) m hm
  have hse := hb.2.2
  have hdim := daysInMonth_bounds (fullYear (fullYear y)) m hm
  refine ⟨?_, ?_, ?_, ?_⟩
  · intro hc
    have hlen := dateRange_length (gridStart (fullYear (fullYear y)) m)
      (gridEnd (fullYear (fullYear y)) m)
    rw [hc] at hlen
    simp only [List.length_nil] at hlen
    omega
  · rw [dateRange_length]
    have hds := getDay_gridStart (fullYear (fullYear y)) m
    have hde := getDay_gridEnd (fullYear (fullYear y)) m
    unfold getDay at hds hde
    omega
  · rw [dateRange_head _ _ hse]
    simp only [Option.map_some']
    rw [getDay_gridStart]
  · rw [dateRange_getLast _ _ hse]
    simp only [Option.map_some']
    rw [getDay_gridEnd]

/-- Claim C2, witness at January 2025. -/
theorem c2_witness :
    (0 : Nat) < 12 ∧
      (getCalendarDates ((0 : Nat) : Int) 2025 ≠ [] ∧
        (getCalendarDates ((0 : Nat) : Int) 2025).length % 7 = 0 ∧
        (getCalendarDates ((0 : Nat) : Int) 2025).head?.map getDay = some 1 ∧
        (getCalendarDates ((0 : Nat) : Int) 2025).getLast?.map getDay = some 0) :=
  ⟨by norm_num, c2_grid_shape 0 2025 (by norm_num)⟩

/-- Claim C6: for every month in [0,11] and every year the grid is a run of
consecutive days — each element is one day after its predecessor — running
from the adjusted Monday start to the adjusted Sunday end inclusive. -/
theorem c6_consecutive_run (m : Nat) (y : Int) (hm : m < 12) :
    consecutiveDays (getCalendarDates (m : Int) y) = true ∧
      getCalendarDates (m : Int) y ≠ [] ∧
      (getCalendarDates (m : Int) y).head? =
        some (gridStart (fullYear (fullYear y)) m) ∧
      (getCalendarDates (m : Int) y).getLast? =
        some (gridEnd (fullYear (fullYear y)) m) ∧
      getDay (gridStart (fullYear (fullYear y)) m) = 1 ∧
      getDay (gridEnd (fullYear (fullYear y)) m) = 0 := by
  have h0 : ((m : Nat) : Int) / 12 = 0 := by omega
  have h1 : (((m : Nat) : Int) % 12).toNat = m := by omega
  rw [getCalendarDates_eq, h0, add_zero, h1]
  have hb := gridStart_gridEnd_bounds (fullYear (fullYear y)) m hm
  have hse := hb.2.2
  refine ⟨?_, ?_, ?_, ?_, ?_, ?_⟩
  · rw [dateRange]
    exact consecutiveDays_dateRangeAux _ _
  · intro hc
    have hlen := dateRange_length (gridStart (fullYear (fullYear y)) m)
      (gridEnd (fullYear (fullYear y)) m)
    rw [hc] at hlen
    simp only [List.length_nil] at hlen
    omega
  · exact dateRange_head _ _ hse
  · exact dateRange_getLast _ _ hse
  · exact getDay_gridStart _ _
  · exact getDay_gridEnd _ _

/-- Claim C6, witness at February 2024. -/
theorem c6_witness :
    (1 : Nat) < 12 ∧
      (consecutiveDays (getCalendarDates ((1 : Nat) : Int) 2024) = true ∧
        getCalendarDates ((1 : Nat) : Int) 2024 ≠ [] ∧
        (getCalendarDates ((1 : Nat) : Int) 2024).head? =
          some (gridStart (fullYear (fullYear 2024)) 1) ∧
        (getCalendarDates ((1 : Nat) : Int) 2024).getLast? =
          some (gridEnd (fullYear (fullYear 2024)) 1) ∧
        getDay (gridStart (fullYear (fullYear 2024)) 1) = 1 ∧
        getDay (gridEnd (fullYear (fullYear 2024)) 1) = 0) :=
  ⟨by norm_num, c6_consecutive_run 1 2024 (by norm_num)⟩

/-- Claim C7: the January 2025 grid starts on Monday 2024-12-30, ends on
Sunday 2025-02-02 and has 35 cells. -/
theorem c7_january2025 :
    (getCalendarDates 0 2025).head? = some (dateToDay 2024 11 30) ∧
      getDay (dateToDay 2024 11 30) = 1 ∧
      (getCalendarDates 0 2025).getLast? = some (dateToDay 2025 1 2) ∧
      getDay (dateToDay 2025 1 2) = 0 ∧
      (getCalendarDates 0 2025).length = 35 := by decide

/-- Claim C8, counterexample: month overflow is applied after the two-digit
year shift, so getCalendarDates 12 99 builds January 2000 while the
normalised call getCalendarDates 0 100 builds January of year 100. -/
theorem c8_counterexample :
    getCalendarDates 12 99 ≠ getCalendarDates (12 % 12) (99 + 12 / 12) := by decide

/-- Claim C8 (amended): the month-overflow normalisation law holds whenever
it is not the case that the given year is in [0,99] while the carried year
is outside [0,99]. -/
theorem c8_normalization (m y : Int)
    (h : ¬ (0 ≤ y ∧ y ≤ 99) ∨ (0 ≤ y + m / 12 ∧ y + m / 12 ≤ 99)) :
    getCalendarDates m y = getCalendarDates (m % 12) (y + m / 12) := by
  rw [getCalendarDates_eq, getCalendarDates_eq (m % 12) (y + m / 12)]
  have h1 : (m % 12) % 12 = m % 12 := by omega
  have h2 : (m % 12) / 12 = 0 := by omega
  rw [h1, h2, add_zero]
  have key : fullYear (fullYear y + m / 12) = fullYear (fullYear (y + m / 12)) := by
    unfold fullYear
    split_ifs <;> omega
  rw [key]

/-- Claim C8, witness: a thirteenth month of 2024 is February 2025. -/
theorem c8_witness :
    (¬ (0 ≤ (2024 : Int) ∧ (2024 : Int) ≤ 99) ∨
        (0 ≤ (2024 : Int) + 13 / 12 ∧ (2024 : Int) + 13 / 12 ≤ 99)) ∧
      getCalendarDates 13 2024 = getCalendarDates (13 % 12) (2024 + 13 / 12) :=
  ⟨Or.inl (by norm_num), c8_normalization 13 2024 (Or.inl (by norm_num))⟩

/-- Claim C3, counterexample: for January 4 of year 0 the computed week
number is far below 1, because the reference January 4 is built with the
two-digit-year constructor and lands in 1900. -/
theorem c3_counterexample :
    ¬ (1 ≤ (calculateWeekNum (dateToDay 0 0 4 * msPerDay)).2 ∧
        (calculateWeekNum (dateToDay 0 0 4 * msPerDay)).2 ≤ 53) := by decide

/-- Claim C3 (amended): for every date whose computed week-year is outside
[0,99], the week number is in [1,53]. -/
theorem c3_weekNum_bounds (t : Int)
    (h : (calculateWeekNum t).1 < 0 ∨ 100 ≤ (calculateWeekNum t).1) :
    1 ≤ (calculateWeekNum t).2 ∧ (calculateWeekNum t).2 ≤ 53 := by
  rw [calculateWeekNum_eval] at h ⊢
  dsimp only at h ⊢
  set z := msDay t with hz
  set Y := getFullYear (thursdayOf z) with hYdef
  have hfy : fullYear Y = Y := by
    unfold fullYear
    rw [if_neg (by omega)]
  rw [hfy]
  have hj : dateToDay Y 0 4 = yearStart Y + 3 := by
    unfold dateToDay
    have h0 : monthOffset Y 0 = 0 := rfl
    omega
  rw [hj]
  have hspec := yearOfDay_spec (thursdayOf z)
  have hYY : yearOfDay (thursdayOf z) = Y := by rw [hYdef]; rfl
  rw [hYY] at hspec
  have hyb := yearStart_succ_bounds Y
  have h4a := getDay_thursdayOf z
  have h4b := getDay_thursdayOf (yearStart Y + 3)
  have hnear := thursdayOf_near (yearStart Y + 3)
  unfold getDay at h4a h4b
  omega

/-- Claim C3, witness at 2025-06-15. -/
theorem c3_witness :
    ((calculateWeekNum (dateToDay 2025 5 15 * msPerDay)).1 < 0 ∨
        100 ≤ (calculateWeekNum (dateToDay 2025 5 15 * msPerDay)).1) ∧
      (1 ≤ (calculateWeekNum (dateToDay 2025 5 15 * msPerDay)).2 ∧
        (calculateWeekNum (dateToDay 2025 5 15 * msPerDay)).2 ≤ 53) :=
  ⟨Or.inr (by decide), c3_weekNum_bounds _ (Or.inr (by decide))⟩

/-- Claim C4: the three fixed points of calculateWeekNum from the spec. -/
theorem c4_fixed_points :
    calculateWeekNum (dateToDay 2021 0 4 * msPerDay) = (2021, 1) ∧
      calculateWeekNum (dateToDay 2020 11 31 * msPerDay) = (2020, 53) ∧
      calculateWeekNum (dateToDay 2023 0 1 * msPerDay) = (2022, 52) := by decide

/-- Claim C5, counterexample: January 4 of year 0 is not assigned week 1 —
the reference week is computed against January 1900. -/
theorem c5_counterexample :
    ¬ (calculateWeekNum (dateToDay 0 0 4 * msPerDay) = (0, 1)) := by decide

/-- Claim C5 (amended): for every year outside [0,99], January 4 of that year
is in week 1 of its own week-year. -/
theorem c5_jan4_week1 (y : Int) (h : y < 0 ∨ 100 ≤ y) :
    calculateWeekNum (dateToDay y 0 4 * msPerDay) = (y, 1) := by
  rw [calculateWeekNum_eval, msDay_mul]
  have hj : dateToDay y 0 4 = yearStart y + 3 := by
    unfold dateToDay
    have h0 : monthOffset y 0 = 0 := rfl
    omega
  rw [hj]
  have hnear := thursdayOf_near (yearStart y + 3)
  have hyb := yearStart_succ_bounds y
  have hY : yearOfDay (thursdayOf (yearStart y + 3)) = y :=
    yearOfDay_eq _ _ (by omega) (by omega)
  have hgY : getFullYear (thursdayOf (yearStart y + 3)) = y := hY
  rw [hgY]
  have hfy : fullYear y = y := by
    unfold fullYear
    rw [if_neg (by omega)]
  rw [hfy, hj]
  exact congrArg (Prod.mk y) (by omega)

/-- Claim C5, witness at year 2024. -/
theorem c5_witness :
    ((2024 : Int) < 0 ∨ 100 ≤ (2024 : Int)) ∧
      calculateWeekNum (dateToDay 2024 0 4 * msPerDay) = (2024, 1) :=
  ⟨by norm_num, c5_jan4_week1 2024 (by norm_num)⟩

/-- Claim C9: for any host locale formatter, getL10Weekday returns exactly
the seven labels of the consecutive days 2021-01-04 .. 2021-01-10, in order,
and that reference week runs Monday through Sunday. -/
theorem c9_weekday_labels (fmt : Int → String) :
    getL10Weekday fmt =
        (List.range 7).map (fun i : Nat => fmt (newDateYMD 2021 0 4 + (i : Int))) ∧
      (getL10Weekday fmt).length = 7 ∧
      getDay (newDateYMD 2021 0 4) = 1 ∧
      getDay (newDateYMD 2021 0 4 + 6) = 0 := by
  have key : ∀ i : Nat,
      newDateYMD 2021 0 ((i : Int) + 4) = newDateYMD 2021 0 4 + (i : Int) := by
    intro i
    unfold newDateYMD makeDay dateToDay
    norm_num
    omega
  refine ⟨?_, ?_, ?_, ?_⟩
  · simp only [getL10Weekday, key]
  · simp [getL10Weekday]
  · decide
  · decide

/-- Claim C9, witness at a constant formatter. -/
theorem c9_witness :
    getL10Weekday (fun _ => "") =
        (List.range 7).map
          (fun i : Nat => (fun _ : Int => "") (newDateYMD 2021 0 4 + (i : Int))) ∧
      (getL10Weekday (fun _ => "")).length = 7 ∧
      getDay (newDateYMD 2021 0 4) = 1 ∧
      getDay (newDateYMD 2021 0 4 + 6) = 0 :=
  c9_weekday_labels (fun _ => "")

/-- Claim C10: calculateWeekNum never writes to the Date object it receives:
after running every statement the argument holds its original time value
(including its time of day), and the function result is computed from the
internal copies only. -/
theorem c10_argument_not_mutated (date : Int) :
    (calculateWeekNumTrace date).date = date ∧
      calculateWeekNum date =
        (getFullYear (msDay (calculateWeekNumTrace date).tempDate),
          (((calculateWeekNumTrace date).tempDate -
              (calculateWeekNumTrace date).forthDay) / msPerDay + 1 + 6) / 7) :=
  ⟨rfl, rfl⟩

end Datenel
